import Mathlib

/-!
Verification of the transport-and-streaming core of the shiplift daemon-control
client. The Rust sources are shallowly embedded: bytes are `Nat` values below
256, byte buffers are `List Nat`, fallible operations return `Except`, and the
asynchronous driver loop of `tokio`'s `FramedRead` is embedded as an explicit
fuel-indexed drain loop over the pure decoder step.
-/

namespace Shiplift

/-- Stream origin tag, from `StreamType` in `src/tty.rs`. -/
inductive StreamType
  | StdIn
  | StdOut
  | StdErr
deriving DecidableEq, Repr

/-- A decoded TTY chunk, from `Chunk` in `src/tty.rs`: an origin tag plus the
raw payload bytes. -/
structure Chunk where
  stream_type : StreamType
  data : List Nat
deriving DecidableEq, Repr

/-- Decoder state, from `TtyDecoderState` in `src/tty.rs`: either waiting for
an 8-byte frame header, or waiting for `len` payload bytes of a frame whose
header has been parsed. -/
inductive TtyDecoderState
  | WaitingHeader
  | WaitingPayload (len : Nat) (stream_type : StreamType)
deriving DecidableEq, Repr

/-- Model of the `Error` enum of `src/errors.rs`. Payloads of variants that
wrap external library errors are reduced to a message string (`Hyper`, `Http`)
or dropped (`Io`, `Encoding`, `SerdeJsonError`), since only the variant tag and
the payloads of `InvalidResponse` and `Fault` are inspected by the code under
verification. The `IO` variant of the source is spelled `Io` here. -/
inductive Error
  | SerdeJsonError
  | Hyper (msg : String)
  | Http (msg : String)
  | Io
  | Encoding
  | InvalidResponse (cause : String)
  | Fault (code : Nat) (message : String)
  | ConnectionNotUpgraded
  | Decode
deriving DecidableEq, Repr

/-- Big-endian read of a byte list, as `BigEndian::read_u32` does on the four
bytes `header_bytes[4..8]` in `src/tty.rs`. -/
def readU32BE (bs : List Nat) : Nat :=
  bs.foldl (fun acc b => acc * 256 + b) 0

/-- The four big-endian bytes of a 32-bit value; used to build the encoder that
the round-trip properties compose with the decoder. -/
def u32be (n : Nat) : List Nat :=
  [n / 16777216 % 256, n / 65536 % 256, n / 256 % 256, n % 256]

/-- The `WaitingPayload` arm of `TtyDecoder::decode` (`src/tty.rs` lines
128-146): with fewer than `len` bytes buffered report need-more-input, else
split off exactly `len` bytes as the payload of one chunk and return to
`WaitingHeader`. -/
def decodePayload (len : Nat) (st : StreamType) (src : List Nat) :
    Except Error (TtyDecoderState × List Nat × Option Chunk) :=
  if src.length < len then
    .ok (.WaitingPayload len st, src, none)
  else
    .ok (.WaitingHeader, src.drop len, some ⟨st, src.take len⟩)

/-- One call of `TtyDecoder::decode` (`src/tty.rs` lines 86-149). The source's
`loop` runs at most one `WaitingHeader` iteration followed by one
`WaitingPayload` iteration, which is inlined here: after a header is parsed the
payload arm is entered immediately, exactly as `continue` does. The result is
the new state, the bytes left in `src`, and at most one decoded chunk; `none`
means "need more input". -/
def decode (state : TtyDecoderState) (src : List Nat) :
    Except Error (TtyDecoderState × List Nat × Option Chunk) :=
  match state with
  | .WaitingPayload len st => decodePayload len st src
  | .WaitingHeader =>
    if src.length < 8 then
      .ok (.WaitingHeader, src, none)
    else
      let header := src.take 8
      let rest := src.drop 8
      let length := readU32BE (header.drop 4)
      match header.headD 0 with
      | 0 => .error (.InvalidResponse "Unsupported stream of type stdin")
      | 1 => decodePayload length .StdOut rest
      | 2 => decodePayload length .StdErr rest
      | (n+3) => .error (.InvalidResponse ("Unsupported stream of type " ++ toString (n+3)))

/-- Termination measure for the drain loop: every chunk-emitting `decode` call
strictly decreases it. -/
def decoderMeasure (state : TtyDecoderState) (src : List Nat) : Nat :=
  2 * src.length + (match state with | .WaitingHeader => 0 | .WaitingPayload _ _ => 1)

/-- Fuel-indexed drain loop: the `FramedRead` driver calls `decode` repeatedly
on the same buffer, collecting emitted chunks, until `decode` reports
need-more-input or an error. The fuel only bounds the recursion; `drain` below
always supplies enough. -/
def drainFuel : Nat → TtyDecoderState → List Nat → Except Error (TtyDecoderState × List Nat × List Chunk)
  | 0, state, src => .ok (state, src, [])
  | fuel+1, state, src =>
    match decode state src with
    | .error e => .error e
    | .ok (s', src', none) => .ok (s', src', [])
    | .ok (s', src', some c) =>
      match drainFuel fuel s' src' with
      | .error e => .error e
      | .ok (s'', src'', cs) => .ok (s'', src'', c :: cs)

/-- Drain the buffer to quiescence: run `decode` until it reports
need-more-input (or an error), collecting the chunks in emission order. -/
def drain (state : TtyDecoderState) (src : List Nat) :
    Except Error (TtyDecoderState × List Nat × List Chunk) :=
  drainFuel (decoderMeasure state src + 1) state src

/-- The framed-reader driver over a sequence of network deliveries: each
delivery is appended to the buffered bytes and the buffer is drained; on a
decode error the driver stops and consumes no further deliveries. -/
def feed : TtyDecoderState → List Nat → List (List Nat) → Except Error (TtyDecoderState × List Nat × List Chunk)
  | state, buf, [] => .ok (state, buf, [])
  | state, buf, d :: ds =>
    match drain state (buf ++ d) with
    | .error e => .error e
    | .ok (s', b', cs) =>
      match feed s' b' ds with
      | .error e => .error e
      | .ok (s'', b'', cs') => .ok (s'', b'', cs ++ cs')

/-- Wire origin byte of a stream tag (§6 of the protocol: 0=stdin, 1=stdout,
2=stderr). -/
def originByte : StreamType → Nat
  | .StdIn => 0
  | .StdOut => 1
  | .StdErr => 2

/-- Encode one (origin, payload) pair as a wire frame: origin byte, three zero
bytes, four-byte big-endian payload length, then the payload. -/
def encodeFrame (f : StreamType × List Nat) : List Nat :=
  originByte f.1 :: 0 :: 0 :: 0 :: (u32be f.2.length ++ f.2)

/-- Encode a sequence of (origin, payload) pairs as concatenated wire frames. -/
def encode (frames : List (StreamType × List Nat)) : List Nat :=
  (frames.map encodeFrame).flatten

/-- The chunk a frame should decode back to. -/
def toChunk (f : StreamType × List Nat) : Chunk :=
  ⟨f.1, f.2⟩

/-- Prepend already-collected chunks to the outcome of a further drain. -/
def prependChunks (cs : List Chunk) :
    Except Error (TtyDecoderState × List Nat × List Chunk) →
    Except Error (TtyDecoderState × List Nat × List Chunk)
  | .error e => .error e
  | .ok (s, b, cs') => .ok (s, b, cs ++ cs')

theorem prependChunks_nil (x : Except Error (TtyDecoderState × List Nat × List Chunk)) :
    prependChunks [] x = x := by
  cases x with
  | error e => rfl
  | ok v => obtain ⟨s, b, cs⟩ := v; simp [prependChunks]

theorem prependChunks_comp (cs cs' : List Chunk)
    (x : Except Error (TtyDecoderState × List Nat × List Chunk)) :
    prependChunks cs (prependChunks cs' x) = prependChunks (cs ++ cs') x := by
  cases x with
  | error e => rfl
  | ok v => obtain ⟨s, b, l⟩ := v; simp [prependChunks]

theorem readU32BE_u32be (n : Nat) (h : n < 4294967296) : readU32BE (u32be n) = n := by
  simp only [readU32BE, u32be, List.foldl]
  omega

/-- A buffer holding at least a full header splits into eight explicit header
bytes and a remainder. -/
theorem header_split (b : List Nat) (h : 8 ≤ b.length) :
    ∃ a0 a1 a2 a3 a4 a5 a6 a7 rest,
      b = a0 :: a1 :: a2 :: a3 :: a4 :: a5 :: a6 :: a7 :: rest := by
  rcases b with _ | ⟨a0, _ | ⟨a1, _ | ⟨a2, _ | ⟨a3, _ | ⟨a4, _ | ⟨a5, _ | ⟨a6, _ | ⟨a7, rest⟩⟩⟩⟩⟩⟩⟩⟩
  all_goals first
    | (exfalso; simp only [List.length_cons, List.length_nil] at h; omega)
    | exact ⟨a0, a1, a2, a3, a4, a5, a6, a7, rest, rfl⟩

/-- Evaluation of `decode` in `WaitingHeader` on a buffer shorter than a
header. -/
theorem decode_short_header {b : List Nat} (h : b.length < 8) :
    decode .WaitingHeader b = .ok (.WaitingHeader, b, none) := by
  simp only [decode, if_pos h]

/-- Evaluation of `decode` in `WaitingHeader` on a buffer with explicit header
bytes. -/
theorem decode_header_cons (a0 a1 a2 a3 a4 a5 a6 a7 : Nat) (rest : List Nat) :
    decode .WaitingHeader (a0 :: a1 :: a2 :: a3 :: a4 :: a5 :: a6 :: a7 :: rest) =
      match a0 with
      | 0 => .error (.InvalidResponse "Unsupported stream of type stdin")
      | 1 => decodePayload (readU32BE [a4, a5, a6, a7]) .StdOut rest
      | 2 => decodePayload (readU32BE [a4, a5, a6, a7]) .StdErr rest
      | (n+3) => .error (.InvalidResponse ("Unsupported stream of type " ++ toString (n+3))) := by
  have h8 : ¬ ((a0 :: a1 :: a2 :: a3 :: a4 :: a5 :: a6 :: a7 :: rest).length < 8) := by
    simp only [List.length_cons]; omega
  simp only [decode, h8, if_false]
  rfl

/-- Evaluation of `decode` in `WaitingPayload`. -/
theorem decode_payload (len : Nat) (st : StreamType) (b : List Nat) :
    decode (.WaitingPayload len st) b = decodePayload len st b := rfl

theorem decodePayload_ne_error (len : Nat) (st : StreamType) (b : List Nat) (e : Error) :
    decodePayload len st b ≠ .error e := by
  simp only [decodePayload]
  split <;> simp

theorem decodePayload_none {len : Nat} {st : StreamType} {b : List Nat}
    {s₂ : TtyDecoderState} {b₂ : List Nat}
    (h : decodePayload len st b = .ok (s₂, b₂, none)) :
    s₂ = .WaitingPayload len st ∧ b₂ = b ∧ b.length < len := by
  simp only [decodePayload] at h
  split at h
  · simp only [Except.ok.injEq, Prod.mk.injEq] at h
    exact ⟨h.1.symm, h.2.1.symm, by assumption⟩
  · simp at h

theorem decodePayload_some {len : Nat} {st : StreamType} {b : List Nat}
    {s' : TtyDecoderState} {b' : List Nat} {c : Chunk}
    (h : decodePayload len st b = .ok (s', b', some c)) :
    s' = .WaitingHeader ∧ b' = b.drop len ∧ c = ⟨st, b.take len⟩ ∧ len ≤ b.length := by
  simp only [decodePayload] at h
  split at h
  · simp at h
  · simp only [Except.ok.injEq, Prod.mk.injEq, Option.some.injEq] at h
    exact ⟨h.1.symm, h.2.1.symm, h.2.2.symm, by omega⟩

theorem decodePayload_some_append {len : Nat} {st : StreamType} {b d : List Nat}
    {s' : TtyDecoderState} {b' : List Nat} {c : Chunk}
    (h : decodePayload len st b = .ok (s', b', some c)) :
    decodePayload len st (b ++ d) = .ok (s', b' ++ d, some c) := by
  obtain ⟨rfl, rfl, rfl, hle⟩ := decodePayload_some h
  simp only [decodePayload]
  rw [if_neg (by simp only [List.length_append]; omega),
    List.drop_append_of_le_length hle, List.take_append_of_le_length hle]

/-- Appending bytes to a buffer on which decode errors does not change the
error. -/
theorem decode_error_append {s : TtyDecoderState} {b d : List Nat} {e : Error}
    (h : decode s b = .error e) : decode s (b ++ d) = .error e := by
  cases s with
  | WaitingPayload len st =>
    exact absurd h (decodePayload_ne_error _ _ _ _)
  | WaitingHeader =>
    by_cases h8 : b.length < 8
    · rw [decode_short_header h8] at h
      exact absurd h (by simp)
    · obtain ⟨a0, a1, a2, a3, a4, a5, a6, a7, rest, rfl⟩ := header_split b (by omega)
      rw [decode_header_cons] at h
      simp only [List.cons_append]
      rw [decode_header_cons]
      rcases a0 with _ | _ | _ | n
      · exact h
      · exact absurd h (decodePayload_ne_error _ _ _ _)
      · exact absurd h (decodePayload_ne_error _ _ _ _)
      · exact h

/-- Appending bytes to a buffer on which decode emits a chunk emits the same
chunk and leaves the appended bytes at the end of the leftover buffer. -/
theorem decode_some_append {s : TtyDecoderState} {b d : List Nat}
    {s' : TtyDecoderState} {b' : List Nat} {c : Chunk}
    (h : decode s b = .ok (s', b', some c)) :
    decode s (b ++ d) = .ok (s', b' ++ d, some c) := by
  cases s with
  | WaitingPayload len st =>
    exact decodePayload_some_append h
  | WaitingHeader =>
    by_cases h8 : b.length < 8
    · rw [decode_short_header h8] at h
      exact absurd h (by simp)
    · obtain ⟨a0, a1, a2, a3, a4, a5, a6, a7, rest, rfl⟩ := header_split b (by omega)
      rw [decode_header_cons] at h
      simp only [List.cons_append]
      rw [decode_header_cons]
      rcases a0 with _ | _ | _ | n
      · exact absurd h (by simp)
      · exact decodePayload_some_append h
      · exact decodePayload_some_append h
      · exact absurd h (by simp)

/-- A decode call that reports need-more-input behaves, after more bytes
arrive, exactly as a fresh decode from the state and buffer it left. -/
theorem decode_none_append {s : TtyDecoderState} {b d : List Nat}
    {s₂ : TtyDecoderState} {b₂ : List Nat}
    (h : decode s b = .ok (s₂, b₂, none)) :
    decode s (b ++ d) = decode s₂ (b₂ ++ d) := by
  cases s with
  | WaitingPayload len st =>
    obtain ⟨rfl, rfl, -⟩ := decodePayload_none h
    rfl
  | WaitingHeader =>
    by_cases h8 : b.length < 8
    · rw [decode_short_header h8] at h
      simp only [Except.ok.injEq, Prod.mk.injEq] at h
      obtain ⟨rfl, rfl, -⟩ := h
      rfl
    · obtain ⟨a0, a1, a2, a3, a4, a5, a6, a7, rest, rfl⟩ := header_split b (by omega)
      rw [decode_header_cons] at h
      simp only [List.cons_append]
      rw [decode_header_cons]
      rcases a0 with _ | _ | _ | n
      · exact absurd h (by simp)
      · obtain ⟨rfl, rfl, -⟩ := decodePayload_none h
        rfl
      · obtain ⟨rfl, rfl, -⟩ := decodePayload_none h
        rfl
      · exact absurd h (by simp)

/-- A decode call that reports need-more-input leaves a state and buffer that
again report need-more-input. -/
theorem decode_none_idem {s : TtyDecoderState} {b : List Nat} {s₂ : TtyDecoderState}
    {b₂ : List Nat} (h : decode s b = .ok (s₂, b₂, none)) :
    decode s₂ b₂ = .ok (s₂, b₂, none) := by
  cases s with
  | WaitingPayload len st =>
    obtain ⟨rfl, rfl, hlt⟩ := decodePayload_none h
    simp only [decode_payload, decodePayload, if_pos hlt]
  | WaitingHeader =>
    by_cases h8 : b.length < 8
    · rw [decode_short_header h8] at h
      simp only [Except.ok.injEq, Prod.mk.injEq] at h
      obtain ⟨rfl, rfl, -⟩ := h
      exact decode_short_header h8
    · obtain ⟨a0, a1, a2, a3, a4, a5, a6, a7, rest, rfl⟩ := header_split b (by omega)
      rw [decode_header_cons] at h
      rcases a0 with _ | _ | _ | n
      · exact absurd h (by simp)
      · obtain ⟨rfl, rfl, hlt⟩ := decodePayload_none h
        simp only [decode_payload, decodePayload, if_pos hlt]
      · obtain ⟨rfl, rfl, hlt⟩ := decodePayload_none h
        simp only [decode_payload, decodePayload, if_pos hlt]
      · exact absurd h (by simp)

/-- Emitting a chunk strictly decreases the drain-loop measure. -/
theorem decode_some_measure {s : TtyDecoderState} {b : List Nat}
    {s' : TtyDecoderState} {b' : List Nat} {c : Chunk}
    (h : decode s b = .ok (s', b', some c)) :
    decoderMeasure s' b' < decoderMeasure s b := by
  cases s with
  | WaitingPayload len st =>
    obtain ⟨rfl, rfl, -, hle⟩ := decodePayload_some h
    simp only [decoderMeasure, List.length_drop]
    omega
  | WaitingHeader =>
    by_cases h8 : b.length < 8
    · rw [decode_short_header h8] at h
      exact absurd h (by simp)
    · obtain ⟨a0, a1, a2, a3, a4, a5, a6, a7, rest, rfl⟩ := header_split b (by omega)
      rw [decode_header_cons] at h
      rcases a0 with _ | _ | _ | n
      · exact absurd h (by simp)
      · obtain ⟨rfl, rfl, -, hle⟩ := decodePayload_some h
        simp only [decoderMeasure, List.length_drop, List.length_cons]
        omega
      · obtain ⟨rfl, rfl, -, hle⟩ := decodePayload_some h
        simp only [decoderMeasure, List.length_drop, List.length_cons]
        omega
      · exact absurd h (by simp)


/-- Any fuel above the measure computes the same drain result as the canonical
fuel used by `drain`. -/
theorem drainFuel_eq_drain {fuel : Nat} {s : TtyDecoderState} {b : List Nat}
    (h : decoderMeasure s b < fuel) : drainFuel fuel s b = drain s b := by
  induction fuel using Nat.strong_induction_on generalizing s b with
  | _ fuel ih =>
    match fuel, h with
    | fuel+1, h =>
      rw [drain, drainFuel, drainFuel]
      cases hd : decode s b with
      | error e => rfl
      | ok v =>
        obtain ⟨s', b', oc⟩ := v
        cases oc with
        | none => rfl
        | some c =>
          have hm : decoderMeasure s' b' < decoderMeasure s b := decode_some_measure hd
          have e1 : drainFuel fuel s' b' = drain s' b' :=
            ih fuel (Nat.lt_succ_self _) (by omega)
          have e2 : drainFuel (decoderMeasure s b) s' b' = drain s' b' :=
            ih (decoderMeasure s b) (by omega) (by omega)
          show (match drainFuel fuel s' b' with
              | .error e => .error e
              | .ok (s'', b'', cs) => .ok (s'', b'', c :: cs)) =
            (match drainFuel (decoderMeasure s b) s' b' with
              | .error e => (.error e : Except Error (TtyDecoderState × List Nat × List Chunk))
              | .ok (s'', b'', cs) => .ok (s'', b'', c :: cs))
          rw [e1, e2]

theorem drain_error {s : TtyDecoderState} {b : List Nat} {e : Error}
    (h : decode s b = .error e) : drain s b = .error e := by
  rw [drain, drainFuel, h]

theorem drain_none {s : TtyDecoderState} {b : List Nat} {s₂ : TtyDecoderState}
    {b₂ : List Nat} (h : decode s b = .ok (s₂, b₂, none)) :
    drain s b = .ok (s₂, b₂, []) := by
  rw [drain, drainFuel, h]

theorem drain_some {s : TtyDecoderState} {b : List Nat} {s' : TtyDecoderState}
    {b' : List Nat} {c : Chunk} (h : decode s b = .ok (s', b', some c)) :
    drain s b = prependChunks [c] (drain s' b') := by
  rw [drain, drainFuel, h]
  show (match drainFuel (decoderMeasure s b) s' b' with
      | .error e => .error e
      | .ok (s'', b'', cs) => .ok (s'', b'', c :: cs)) =
    prependChunks [c] (drain s' b')
  rw [drainFuel_eq_drain (decode_some_measure h)]
  cases drain s' b' with
  | error e => rfl
  | ok v => obtain ⟨s'', b'', cs⟩ := v; simp [prependChunks]

/-- The drain loop is determined by the outcome of its first decode step. -/
theorem drain_congr {s : TtyDecoderState} {b : List Nat} {s₂ : TtyDecoderState}
    {b₂ : List Nat} (h : decode s b = decode s₂ b₂) : drain s b = drain s₂ b₂ := by
  cases hd : decode s b with
  | error e => rw [drain_error hd, drain_error (h.symm.trans hd)]
  | ok v =>
    obtain ⟨s', b', oc⟩ := v
    cases oc with
    | none => rw [drain_none hd, drain_none (h.symm.trans hd)]
    | some c => rw [drain_some hd, drain_some (h.symm.trans hd)]

/-- The state and buffer left by a successful drain are quiescent: another
decode step reports need-more-input without progress. -/
theorem drain_quiescent {s : TtyDecoderState} {b : List Nat} {s₁ : TtyDecoderState}
    {b₁ : List Nat} {cs : List Chunk} (h : drain s b = .ok (s₁, b₁, cs)) :
    decode s₁ b₁ = .ok (s₁, b₁, none) := by
  have key : ∀ n (s : TtyDecoderState) (b : List Nat) (s₁ : TtyDecoderState)
      (b₁ : List Nat) (cs : List Chunk), decoderMeasure s b ≤ n →
      drain s b = .ok (s₁, b₁, cs) → decode s₁ b₁ = .ok (s₁, b₁, none) := by
    intro n
    induction n using Nat.strong_induction_on with
    | _ n ih =>
      intro s b s₁ b₁ cs hn h
      cases hd : decode s b with
      | error e => rw [drain_error hd] at h; exact absurd h (by simp)
      | ok v =>
        obtain ⟨s₂, b₂, oc⟩ := v
        cases oc with
        | none =>
          rw [drain_none hd] at h
          simp only [Except.ok.injEq, Prod.mk.injEq] at h
          obtain ⟨rfl, rfl, -⟩ := h
          exact decode_none_idem hd
        | some c =>
          rw [drain_some hd] at h
          cases hd2 : drain s₂ b₂ with
          | error e => rw [hd2] at h; exact absurd h (by simp [prependChunks])
          | ok v2 =>
            obtain ⟨s₃, b₃, cs₃⟩ := v2
            rw [hd2] at h
            simp only [prependChunks, Except.ok.injEq, Prod.mk.injEq] at h
            obtain ⟨h1, h2, -⟩ := h
            have hm := decode_some_measure hd
            have hq := ih (decoderMeasure s₂ b₂) (by omega) s₂ b₂ s₃ b₃ cs₃ le_rfl hd2
            rw [h1, h2] at hq
            exact hq
  exact key (decoderMeasure s b) s b s₁ b₁ cs le_rfl h

/-- Draining a buffer extended by later-arriving bytes first yields exactly the
chunks of the original drain, then continues from the state and leftover the
original drain reached; an error outcome persists. -/
theorem drain_append (s : TtyDecoderState) (b d : List Nat) :
    (∀ e, drain s b = .error e → drain s (b ++ d) = .error e) ∧
    (∀ s' b' cs, drain s b = .ok (s', b', cs) →
      drain s (b ++ d) = prependChunks cs (drain s' (b' ++ d))) := by
  have key : ∀ n (s : TtyDecoderState) (b : List Nat), decoderMeasure s b ≤ n →
      (∀ e, drain s b = .error e → drain s (b ++ d) = .error e) ∧
      (∀ s' b' cs, drain s b = .ok (s', b', cs) →
        drain s (b ++ d) = prependChunks cs (drain s' (b' ++ d))) := by
    intro n
    induction n using Nat.strong_induction_on with
    | _ n ih =>
      intro s b hn
      cases hd : decode s b with
      | error e0 =>
        constructor
        · intro e he
          rw [drain_error hd] at he
          simp only [Except.error.injEq] at he
          subst he
          exact drain_error (decode_error_append hd)
        · intro s' b' cs h
          rw [drain_error hd] at h
          exact absurd h (by simp)
      | ok v =>
        obtain ⟨s₂, b₂, oc⟩ := v
        cases oc with
        | none =>
          constructor
          · intro e he
            rw [drain_none hd] at he
            exact absurd he (by simp)
          · intro s' b' cs h
            rw [drain_none hd] at h
            simp only [Except.ok.injEq, Prod.mk.injEq] at h
            obtain ⟨rfl, rfl, rfl⟩ := h
            rw [prependChunks_nil]
            exact drain_congr (decode_none_append hd)
        | some c =>
          have hm := decode_some_measure hd
          have hstep : drain s (b ++ d) = prependChunks [c] (drain s₂ (b₂ ++ d)) :=
            drain_some (decode_some_append hd)
          constructor
          · intro e he
            rw [drain_some hd] at he
            cases hd2 : drain s₂ b₂ with
            | error e2 =>
              rw [hd2] at he
              simp only [prependChunks, Except.error.injEq] at he
              rw [hstep, (ih (decoderMeasure s₂ b₂) (by omega) s₂ b₂ le_rfl).1 e2 hd2, he]
              rfl
            | ok v2 =>
              rw [hd2] at he
              obtain ⟨s₃, b₃, cs₃⟩ := v2
              exact absurd he (by simp [prependChunks])
          · intro s' b' cs h
            rw [drain_some hd] at h
            cases hd2 : drain s₂ b₂ with
            | error e2 =>
              rw [hd2] at h
              exact absurd h (by simp [prependChunks])
            | ok v2 =>
              obtain ⟨s₃, b₃, cs₃⟩ := v2
              rw [hd2] at h
              simp only [prependChunks, Except.ok.injEq, Prod.mk.injEq] at h
              obtain ⟨h1, h2, h3⟩ := h
              rw [hstep, (ih (decoderMeasure s₂ b₂) (by omega) s₂ b₂ le_rfl).2 s₃ b₃ cs₃ hd2,
                prependChunks_comp, ← h1, ← h2, ← h3]
  exact key (decoderMeasure s b) s b le_rfl

/-- Feeding deliveries one by one through the framed-reader driver is the same
as draining their concatenation at once, provided the starting buffer is
quiescent. -/
theorem feed_flatten {s : TtyDecoderState} {b : List Nat}
    (hq : decode s b = .ok (s, b, none)) (ds : List (List Nat)) :
    feed s b ds = drain s (b ++ ds.flatten) := by
  induction ds generalizing s b with
  | nil =>
    rw [List.flatten_nil, List.append_nil, feed, drain_none hq]
  | cons d ds ih =>
    rw [List.flatten_cons, ← List.append_assoc]
    cases hd : drain s (b ++ d) with
    | error e =>
      rw [feed, hd, (drain_append s (b ++ d) ds.flatten).1 e hd]
    | ok v =>
      obtain ⟨s₁, b₁, cs⟩ := v
      rw [feed, hd, (drain_append s (b ++ d) ds.flatten).2 s₁ b₁ cs hd,
        ← ih (drain_quiescent hd)]
      show (match feed s₁ b₁ ds with
          | .error e => .error e
          | .ok (s'', b'', cs') => .ok (s'', b'', cs ++ cs')) =
        prependChunks cs (feed s₁ b₁ ds)
      cases feed s₁ b₁ ds with
      | error e => rfl
      | ok v2 => obtain ⟨x, y, z⟩ := v2; rfl

/-- Decoding a buffer that starts with one encoded frame (with a decodable
origin) emits exactly that frame's chunk and leaves the remainder. -/
theorem decode_encodeFrame (f : StreamType × List Nat) (t : List Nat)
    (hst : f.1 ≠ .StdIn) (hlen : f.2.length < 4294967296) :
    decode .WaitingHeader (encodeFrame f ++ t) = .ok (.WaitingHeader, t, some (toChunk f)) := by
  obtain ⟨st, p⟩ := f
  have hr : readU32BE [p.length / 16777216 % 256, p.length / 65536 % 256,
      p.length / 256 % 256, p.length % 256] = p.length := readU32BE_u32be p.length hlen
  have hpay : decodePayload p.length st (p ++ t) = .ok (.WaitingHeader, t, some ⟨st, p⟩) := by
    simp only [decodePayload]
    rw [if_neg (by simp only [List.length_append]; omega), List.take_left, List.drop_left]
  cases st with
  | StdIn => exact absurd rfl hst
  | StdOut =>
    have hsh : encodeFrame (StreamType.StdOut, p) ++ t =
        1 :: 0 :: 0 :: 0 :: (p.length / 16777216 % 256) :: (p.length / 65536 % 256) ::
          (p.length / 256 % 256) :: (p.length % 256) :: (p ++ t) := by
      simp [encodeFrame, u32be, originByte]
    rw [hsh, decode_header_cons]
    show decodePayload (readU32BE [p.length / 16777216 % 256, p.length / 65536 % 256,
      p.length / 256 % 256, p.length % 256]) StreamType.StdOut (p ++ t) = _
    rw [hr, hpay]
    rfl
  | StdErr =>
    have hsh : encodeFrame (StreamType.StdErr, p) ++ t =
        2 :: 0 :: 0 :: 0 :: (p.length / 16777216 % 256) :: (p.length / 65536 % 256) ::
          (p.length / 256 % 256) :: (p.length % 256) :: (p ++ t) := by
      simp [encodeFrame, u32be, originByte]
    rw [hsh, decode_header_cons]
    show decodePayload (readU32BE [p.length / 16777216 % 256, p.length / 65536 % 256,
      p.length / 256 % 256, p.length % 256]) StreamType.StdErr (p ++ t) = _
    rw [hr, hpay]
    rfl

/-- Draining a buffer that starts with a sequence of encoded frames (all with
decodable origins) emits exactly their chunks, then continues on the
remainder. -/
theorem drain_encode (frames : List (StreamType × List Nat))
    (h : ∀ f ∈ frames, f.1 ≠ StreamType.StdIn ∧ f.2.length < 4294967296)
    (t : List Nat) :
    drain .WaitingHeader (encode frames ++ t) =
      prependChunks (frames.map toChunk) (drain .WaitingHeader t) := by
  induction frames with
  | nil =>
    rw [show encode [] = ([] : List Nat) from rfl, List.nil_append, List.map_nil,
      prependChunks_nil]
  | cons f fs ih =>
    have hf := h f (List.mem_cons_self f fs)
    have hfs : ∀ g ∈ fs, g.1 ≠ StreamType.StdIn ∧ g.2.length < 4294967296 :=
      fun g hg => h g (List.mem_cons_of_mem f hg)
    have henc : encode (f :: fs) = encodeFrame f ++ encode fs := by
      simp [encode]
    rw [henc, List.append_assoc, drain_some (decode_encodeFrame f _ hf.1 hf.2),
      ih hfs, prependChunks_comp, List.map_cons, List.singleton_append]

/-- C1 (amended): for frames whose origin is stdout or stderr and whose
payload length is at most 65536, encoding then decoding under arbitrarily
chunked deliveries returns exactly the original chunk sequence and leaves the
decoder in `WaitingHeader` with an empty buffer. (The claim's origin 0, stdin,
is refuted separately: `TtyDecoder::decode` rejects it.) -/
theorem C1_decode_encode_roundtrip (frames : List (StreamType × List Nat))
    (ds : List (List Nat))
    (hst : ∀ f ∈ frames, f.1 ≠ StreamType.StdIn)
    (hlen : ∀ f ∈ frames, f.2.length ≤ 65536)
    (hds : ds.flatten = encode frames) :
    feed .WaitingHeader [] ds = .ok (.WaitingHeader, [], frames.map toChunk) := by
  have hq : decode TtyDecoderState.WaitingHeader ([] : List Nat) =
      .ok (.WaitingHeader, [], none) := rfl
  rw [feed_flatten hq ds, List.nil_append, hds,
    show encode frames = encode frames ++ [] by rw [List.append_nil],
    drain_encode frames (fun f hf => ⟨hst f hf, by have := hlen f hf; omega⟩) [],
    drain_none hq]
  simp [prependChunks]

/-- C1 counterexample: the encoding of the single pair (stdin, empty payload)
is a legitimate frame with origin byte 0, but feeding it to the decoder yields
the `InvalidResponse` error "Unsupported stream of type stdin" instead of the
chunk sequence the claim promises. -/
theorem C1_counterexample :
    encode [(StreamType.StdIn, ([] : List Nat))] = [0, 0, 0, 0, 0, 0, 0, 0] ∧
    feed .WaitingHeader [] [[0, 0, 0, 0, 0, 0, 0, 0]] =
      .error (.InvalidResponse "Unsupported stream of type stdin") ∧
    feed .WaitingHeader [] [[0, 0, 0, 0, 0, 0, 0, 0]] ≠
      .ok (.WaitingHeader, [], [(StreamType.StdIn, ([] : List Nat))].map toChunk) := by
  refine ⟨rfl, rfl, ?_⟩
  intro h
  rw [show feed .WaitingHeader [] [[0, 0, 0, 0, 0, 0, 0, 0]] =
      .error (.InvalidResponse "Unsupported stream of type stdin") from rfl] at h
  exact absurd h (by simp)

/-- C1 witness: the spec's end-to-end scenario, delivered one byte at a time -
the frame `[1,0,0,0, 0,0,0,5, 'h','e','l','l','o']` decodes to a single stdout
chunk "hello" and leaves the decoder in `WaitingHeader`. -/
theorem C1_roundtrip_witness :
    feed .WaitingHeader []
        [[1], [0], [0], [0], [0], [0], [0], [5], [104], [101], [108], [108], [111]] =
      .ok (.WaitingHeader, [],
        [⟨StreamType.StdOut, [104, 101, 108, 108, 111]⟩]) :=
  C1_decode_encode_roundtrip [(StreamType.StdOut, [104, 101, 108, 108, 111])]
    [[1], [0], [0], [0], [0], [0], [0], [5], [104], [101], [108], [108], [111]]
    (by decide) (by decide) (by decide)

/-- C2 (confirmed): whenever the byte stream consists of well-formed frames
followed by a header whose origin byte is not 0, 1 or 2, the decoder - under
any chunking of the deliveries - stops with the typed `InvalidResponse` error
naming that byte, regardless of what bytes follow the bad header: no further
input is consumed. -/
theorem C2_unknown_origin_invalid_response
    (frames : List (StreamType × List Nat))
    (hfr : ∀ f ∈ frames, f.1 ≠ StreamType.StdIn ∧ f.2.length < 4294967296)
    (n a1 a2 a3 a4 a5 a6 a7 : Nat) (hn : 3 ≤ n) (tail : List Nat)
    (ds : List (List Nat))
    (hds : ds.flatten = encode frames ++ n :: a1 :: a2 :: a3 :: a4 :: a5 :: a6 :: a7 :: tail) :
    feed .WaitingHeader [] ds =
      .error (.InvalidResponse ("Unsupported stream of type " ++ toString n)) := by
  have hdec : decode .WaitingHeader (n :: a1 :: a2 :: a3 :: a4 :: a5 :: a6 :: a7 :: tail) =
      .error (.InvalidResponse ("Unsupported stream of type " ++ toString n)) := by
    obtain ⟨m, rfl⟩ : ∃ m, n = m + 3 := ⟨n - 3, by omega⟩
    rw [decode_header_cons]
  have hq : decode TtyDecoderState.WaitingHeader ([] : List Nat) =
      .ok (.WaitingHeader, [], none) := rfl
  rw [feed_flatten hq ds, List.nil_append, hds, drain_encode frames hfr _,
    drain_error hdec]
  rfl

/-- C2 witness: the 8-byte header with origin byte 3 yields exactly
`InvalidResponse "Unsupported stream of type 3"`. -/
theorem C2_unknown_origin_witness :
    feed .WaitingHeader [] [[3, 0, 0, 0, 0, 0, 0, 0]] =
      .error (.InvalidResponse "Unsupported stream of type 3") :=
  C2_unknown_origin_invalid_response [] (by decide) 3 0 0 0 0 0 0 0 (by decide) []
    [[3, 0, 0, 0, 0, 0, 0, 0]] (by decide)

/-- C6 (confirmed): (1) in `WaitingHeader` with fewer than 8 buffered bytes and
(2) in `WaitingPayload len st` with fewer than `len` buffered bytes, a decode
step consumes nothing, emits nothing and reports need-more-input; and (3) a
truncated stream - well-formed frames followed by a header whose declared
payload exceeds the bytes that follow - decodes, under any chunking, to exactly
the complete frames' chunks with no partial chunk, ending in `WaitingPayload`
with the undersized payload still buffered. -/
theorem C6_truncated_stream_no_partial_chunk :
    (∀ b : List Nat, b.length < 8 →
      decode .WaitingHeader b = .ok (.WaitingHeader, b, none)) ∧
    (∀ (len : Nat) (st : StreamType) (b : List Nat), b.length < len →
      decode (.WaitingPayload len st) b = .ok (.WaitingPayload len st, b, none)) ∧
    (∀ frames : List (StreamType × List Nat),
      (∀ f ∈ frames, f.1 ≠ StreamType.StdIn ∧ f.2.length < 4294967296) →
      ∀ st : StreamType, st ≠ StreamType.StdIn →
      ∀ declared : Nat, declared < 4294967296 →
      ∀ p : List Nat, p.length < declared →
      ∀ ds : List (List Nat),
        ds.flatten = encode frames ++ originByte st :: 0 :: 0 :: 0 :: (u32be declared ++ p) →
        feed .WaitingHeader [] ds =
          .ok (.WaitingPayload declared st, p, frames.map toChunk)) := by
  refine ⟨fun b h => decode_short_header h,
    fun len st b h => by simp only [decode_payload, decodePayload, if_pos h],
    fun frames hfr st hst declared hd32 p hp ds hds => ?_⟩
  have hr : readU32BE [declared / 16777216 % 256, declared / 65536 % 256,
      declared / 256 % 256, declared % 256] = declared := readU32BE_u32be declared hd32
  have hdec : decode .WaitingHeader (originByte st :: 0 :: 0 :: 0 :: (u32be declared ++ p)) =
      .ok (.WaitingPayload declared st, p, none) := by
    cases st with
    | StdIn => exact absurd rfl hst
    | StdOut =>
      have hsh : originByte StreamType.StdOut :: 0 :: 0 :: 0 :: (u32be declared ++ p) =
          1 :: 0 :: 0 :: 0 :: (declared / 16777216 % 256) :: (declared / 65536 % 256) ::
            (declared / 256 % 256) :: (declared % 256) :: p := by
        simp [u32be, originByte]
      rw [hsh, decode_header_cons]
      show decodePayload (readU32BE [declared / 16777216 % 256, declared / 65536 % 256,
        declared / 256 % 256, declared % 256]) StreamType.StdOut p = _
      rw [hr]
      simp only [decodePayload, if_pos hp]
    | StdErr =>
      have hsh : originByte StreamType.StdErr :: 0 :: 0 :: 0 :: (u32be declared ++ p) =
          2 :: 0 :: 0 :: 0 :: (declared / 16777216 % 256) :: (declared / 65536 % 256) ::
            (declared / 256 % 256) :: (declared % 256) :: p := by
        simp [u32be, originByte]
      rw [hsh, decode_header_cons]
      show decodePayload (readU32BE [declared / 16777216 % 256, declared / 65536 % 256,
        declared / 256 % 256, declared % 256]) StreamType.StdErr p = _
      rw [hr]
      simp only [decodePayload, if_pos hp]
  have hq : decode TtyDecoderState.WaitingHeader ([] : List Nat) =
      .ok (.WaitingHeader, [], none) := rfl
  rw [feed_flatten hq ds, List.nil_append, hds, drain_encode frames hfr _,
    drain_none hdec]
  simp [prependChunks]

/-- C6 witness: a header-only fragment, a payload-starved `WaitingPayload`
state, and a truncated stream (declared length 5, only one payload byte)
that yields no chunk and parks the byte in the buffer. -/
theorem C6_truncated_stream_witness :
    decode .WaitingHeader [1, 2, 3] = .ok (.WaitingHeader, [1, 2, 3], none) ∧
    decode (.WaitingPayload 5 .StdOut) [9] = .ok (.WaitingPayload 5 .StdOut, [9], none) ∧
    feed .WaitingHeader [] [[1, 0, 0, 0, 0, 0, 0, 5, 104]] =
      .ok (.WaitingPayload 5 .StdOut, [104], []) :=
  ⟨C6_truncated_stream_no_partial_chunk.1 [1, 2, 3] (by decide),
   C6_truncated_stream_no_partial_chunk.2.1 5 .StdOut [9] (by decide),
   C6_truncated_stream_no_partial_chunk.2.2 [] (by decide) .StdOut (by decide) 5 (by decide)
     [104] (by decide) [[1, 0, 0, 0, 0, 0, 0, 5, 104]] (by decide)⟩


/-! ## Unix-domain transport addresses (src/http_client/transport/uds.rs and
src/transport/uds.rs) -/

/-- Lowercase hexadecimal digit character, as produced by `hex::encode`. -/
def hexDigit (n : Nat) : Char :=
  if n < 10 then Char.ofNat (48 + n) else Char.ofNat (87 + n)

/-- Model of `hex::encode` on a byte sequence: two lowercase hex digits per
byte, most significant nibble first. -/
def hexEncode : List Nat → List Char
  | [] => []
  | b :: bs => hexDigit (b / 16) :: hexDigit (b % 16) :: hexEncode bs

/-- Value of one hex digit character, upper or lower case, as accepted by
`Vec::from_hex`. -/
def hexDigitVal? (c : Char) : Option Nat :=
  if 48 ≤ c.toNat ∧ c.toNat ≤ 57 then some (c.toNat - 48)
  else if 97 ≤ c.toNat ∧ c.toNat ≤ 102 then some (c.toNat - 87)
  else if 65 ≤ c.toNat ∧ c.toNat ≤ 70 then some (c.toNat - 55)
  else none

/-- Model of `Vec::from_hex`: an even number of hex digits decodes pairwise to
bytes; an odd length or a non-hex character fails. -/
def hexDecode : List Char → Option (List Nat)
  | [] => some []
  | [_] => none
  | c1 :: c2 :: cs =>
    match hexDigitVal? c1, hexDigitVal? c2, hexDecode cs with
    | some h, some l, some rest => some ((16 * h + l) :: rest)
    | _, _, _ => none

/-- Model of `http::Uri` restricted to the components `parse_socket_path`
inspects: the scheme and the host (authority) segment. -/
structure Uri where
  scheme : Option String
  host : Option String
deriving DecidableEq, Repr

/-- `unix_uri` from `src/transport/uds.rs` lines 70-77: the socket path's
bytes (`to_string_lossy().as_bytes()`, here the path represented by its byte
sequence) are hex-encoded into the host segment of
`unix://<hex>:0<path>`. The `format!` plus `http::Uri` `.parse().unwrap()` of
the source is modelled at the component level: for the hex host produced here
and an endpoint path beginning with "/" (as at every call site) the parse
succeeds with scheme `unix` and host equal to the hex string. -/
def unix_uri (socket : List Nat) (path : String) : Uri :=
  { scheme := some "unix", host := some (String.mk (hexEncode socket)) }

/-- `parse_socket_path` from `src/transport/uds.rs` lines 79-102: requires
scheme `unix` and a present, hex-decodable host; the resulting `PathBuf` is
`PathBuf::from(String::from_utf8_lossy(&bytes))`, represented here by the
decoded byte sequence (`from_utf8_lossy` is the identity byte transformation
on valid UTF-8 input, which is the regime of the round-trip claim). Errors
are the `io::Error` messages of the source. -/
def parse_socket_path (uri : Uri) : Except String (List Nat) :=
  if uri.scheme ≠ some "unix" then
    .error "invalid URL, scheme must be unix"
  else
    match uri.host with
    | some host =>
      match hexDecode host.data with
      | some bytes => .ok bytes
      | none => .error "invalid URL, host must be a hex-encoded path"
    | none => .error "invalid URL, host must be present"

/-- `Uds::uri` from `src/http_client/transport/uds.rs` lines 18-24: formats
the raw socket path (`to_string_lossy`, i.e. for a valid-UTF-8 path the path
string itself) directly into `unix://<path>:0<endpoint>` - with no hex
encoding. -/
def Uds_uri (path : String) (endpoint : String) : String :=
  "unix://" ++ path ++ ":0" ++ endpoint

/-- The string form of the address `unix_uri` builds before parsing it: the
hex-host form `unix://<hex(path)>:0<endpoint>` that the claim describes. -/
def unix_uri_string (socket : List Nat) (path : String) : String :=
  "unix://" ++ String.mk (hexEncode socket) ++ ":0" ++ path

theorem hexDigitVal?_hexDigit (n : Nat) (h : n < 16) :
    hexDigitVal? (hexDigit n) = some n := by
  have key : ∀ m : Fin 16, hexDigitVal? (hexDigit m.val) = some m.val := by decide
  exact key ⟨n, h⟩

theorem hexDecode_hexEncode (bs : List Nat) (h : ∀ b ∈ bs, b < 256) :
    hexDecode (hexEncode bs) = some bs := by
  induction bs with
  | nil => rfl
  | cons b bs ih =>
    have hb : b < 256 := h b (List.mem_cons_self b bs)
    have hhi : b / 16 < 16 := by omega
    have hlo : b % 16 < 16 := by omega
    rw [hexEncode, hexDecode, hexDigitVal?_hexDigit _ hhi, hexDigitVal?_hexDigit _ hlo,
      ih (fun x hx => h x (List.mem_cons_of_mem b hx))]
    have hbv : 16 * (b / 16) + b % 16 = b := by omega
    show some ((16 * (b / 16) + b % 16) :: bs) = some (b :: bs)
    rw [hbv]

/-- C9 (confirmed): `parse_socket_path` recovers the socket path from the URI
`unix_uri` builds for it, for every byte-valid socket path and every
endpoint. -/
theorem C9_parse_socket_path_left_inverse (socket : List Nat)
    (h : ∀ b ∈ socket, b < 256) (endpoint : String) :
    parse_socket_path (unix_uri socket endpoint) = .ok socket := by
  rw [parse_socket_path, unix_uri]
  rw [if_neg (by simp)]
  show (match hexDecode (String.mk (hexEncode socket)).data with
    | some bytes => (.ok bytes : Except String (List Nat))
    | none => .error "invalid URL, host must be a hex-encoded path") = .ok socket
  rw [show (String.mk (hexEncode socket)).data = hexEncode socket from rfl,
    hexDecode_hexEncode socket h]

/-- C9 witness: the path "/var/run/x.sock" round-trips through
`unix_uri` and `parse_socket_path`. -/
theorem C9_parse_socket_path_witness :
    parse_socket_path
      (unix_uri [47, 118, 97, 114, 47, 114, 117, 110, 47, 120, 46, 115, 111, 99, 107] "/info") =
      .ok [47, 118, 97, 114, 47, 114, 117, 110, 47, 120, 46, 115, 111, 99, 107] :=
  C9_parse_socket_path_left_inverse
    [47, 118, 97, 114, 47, 114, 117, 110, 47, 120, 46, 115, 111, 99, 107]
    (by decide) "/info"

/-- C3 (code bug): at socket path "/var/run/x.sock" and endpoint "/info", the
transport's uri function (`Uds::uri`) produces the raw-path address, not the
hex-host address the claim states; the hex-host form is what the repository's
own connector-side parser (`parse_socket_path`) and the hyperlocal connector
that `Uds` dispatches through require, and it is produced only by the helper
`unix_uri`. The raw form's host segment is not hex-decodable at all. -/
theorem C3_uds_uri_is_raw_not_hex :
    Uds_uri "/var/run/x.sock" "/info" = "unix:///var/run/x.sock:0/info" ∧
    unix_uri_string [47, 118, 97, 114, 47, 114, 117, 110, 47, 120, 46, 115, 111, 99, 107]
        "/info" = "unix://2f7661722f72756e2f782e736f636b:0/info" ∧
    Uds_uri "/var/run/x.sock" "/info" ≠
      unix_uri_string [47, 118, 97, 114, 47, 114, 117, 110, 47, 120, 46, 115, 111, 99, 107]
        "/info" ∧
    hexDecode "/var/run/x.sock".data = none := by
  refine ⟨rfl, by decide, by decide, by decide⟩


/-! ## HTTP client and request builder (src/http_client.rs and
src/http_client/request.rs) -/

/-- HTTP method, from `hyper::Method`; only the verbs the client uses. -/
inductive Method
  | GET
  | POST
  | PUT
  | DELETE
  | HEAD
deriving DecidableEq, Repr

/-- `BodyType` from `src/http_client.rs` lines 92-95: a request body is
tagged JSON bytes or tar-archive bytes - the only two variants. -/
inductive BodyType
  | Json (data : List Nat)
  | Tar (data : List Nat)
deriving DecidableEq, Repr

/-- `BodyType::mime` (`src/http_client.rs` lines 106-111):
`mime::APPLICATION_JSON.to_string()` is the string "application/json". -/
def BodyType.mime : BodyType → String
  | .Json _ => "application/json"
  | .Tar _ => "application/x-tar"

/-- `BodyType::into_data` (`src/http_client.rs` lines 113-117). -/
def BodyType.into_data : BodyType → List Nat
  | .Json data => data
  | .Tar data => data

/-- The `HttpClient` enum of `src/http_client.rs`: one transport selected at
construction. Each variant carries what its `uri` function reads. -/
inductive HttpClient
  | Tcp (host : String)
  | Tls (host : String)
  | Uds (path : String)
deriving DecidableEq, Repr

/-- `HttpClient::uri` dispatching to the selected transport's `uri`
(`src/http_client.rs` lines 77-82): `Tcp::uri` and `Tls::uri` format
`<host><endpoint>`; `Uds::uri` is `Uds_uri`. -/
def HttpClient.uri : HttpClient → String → String
  | .Tcp host, endpoint => host ++ endpoint
  | .Tls host, endpoint => host ++ endpoint
  | .Uds path, endpoint => Uds_uri path endpoint

/-- The builder state of `RequestBuilder` (`src/http_client/request.rs` lines
17-23). The `http::request::Builder` inside it is represented by the method
and header list it accumulates (`builder_method`, `builder_headers`); the
`http_client` reference is carried as the `HttpClient` value itself. -/
structure RequestBuilder where
  http_client : HttpClient
  uri_base : String
  query : Option String
  body : Option BodyType
  builder_method : Method
  builder_headers : List (String × String)
deriving DecidableEq, Repr

/-- The finalized wire request produced by `into_request`. -/
structure Request where
  method : Method
  uri : String
  headers : List (String × String)
  body : List Nat
deriving DecidableEq, Repr

/-- `RequestBuilder::new` (`src/http_client/request.rs` lines 26-43): uri_base
from the transport, no query, no body, and a fresh `hyper::Request::builder()`
whose method is immediately set to GET. -/
def RequestBuilder.new (http_client : HttpClient) (endpoint : String) : RequestBuilder :=
  { http_client
    uri_base := http_client.uri endpoint
    query := none
    body := none
    builder_method := .GET
    builder_headers := [] }

/-- `RequestBuilder::method` (`src/http_client/request.rs` lines 47-53). -/
def RequestBuilder.method (rb : RequestBuilder) (m : Method) : RequestBuilder :=
  { rb with builder_method := m }

/-- `HttpClient::request` (`src/http_client.rs` lines 36-41): a builder with
no explicit method call. -/
def HttpClient.request (c : HttpClient) (endpoint : String) : RequestBuilder :=
  RequestBuilder.new c endpoint

/-- `HttpClient::get`/`post`/`put`/`delete` (`src/http_client.rs` lines
42-65): a fresh builder with the method overridden. -/
def HttpClient.get (c : HttpClient) (endpoint : String) : RequestBuilder :=
  (RequestBuilder.new c endpoint).method .GET

def HttpClient.post (c : HttpClient) (endpoint : String) : RequestBuilder :=
  (RequestBuilder.new c endpoint).method .POST

def HttpClient.put (c : HttpClient) (endpoint : String) : RequestBuilder :=
  (RequestBuilder.new c endpoint).method .PUT

def HttpClient.delete (c : HttpClient) (endpoint : String) : RequestBuilder :=
  (RequestBuilder.new c endpoint).method .DELETE

/-- Validity of a header value per `http::HeaderValue::from_str`: every byte
is horizontal tab or in 32..=255 except DEL (127); characters above 127
encode to UTF-8 bytes that are all ≥ 128 and hence valid. -/
def headerValueValid (v : String) : Bool :=
  v.data.all fun c => c.toNat == 9 || (32 ≤ c.toNat && c.toNat ≠ 127)

/-- Outcome of a builder step that can panic, distinguishing a Rust panic
from a returned value. -/
inductive BuildStep (α : Type)
  | ok (val : α)
  | panicked (msg : String)
deriving DecidableEq, Repr

/-- `RequestBuilder::header` (`src/http_client/request.rs` lines 55-63):
`HeaderValue::from_str(value).unwrap()` panics on an invalid header value
before the header is appended; on a valid value the pair is appended to the
builder's header map. -/
def RequestBuilder.header (rb : RequestBuilder) (key value : String) :
    BuildStep RequestBuilder :=
  if headerValueValid value then
    .ok { rb with builder_headers := rb.builder_headers ++ [(key, value)] }
  else
    .panicked "called Result::unwrap() on an Err value"

/-- `RequestBuilder::json_body` (`src/http_client/request.rs` lines 75-82);
the serde serialization is represented by its output bytes. -/
def RequestBuilder.json_body (rb : RequestBuilder) (data : List Nat) : RequestBuilder :=
  { rb with body := some (BodyType.Json data) }

/-- `RequestBuilder::tar_body` (`src/http_client/request.rs` lines 84-90). -/
def RequestBuilder.tar_body (rb : RequestBuilder) (data : List Nat) : RequestBuilder :=
  { rb with body := some (BodyType.Tar data) }

/-- `RequestBuilder::into_request` (`src/http_client/request.rs` lines
94-117): append the query string to the uri, and if a body is attached append
a content-type header carrying the body tag's MIME type. The fallible
`HeaderValue::try_from(mime)` cannot fail on the two MIME strings, and
`builder.body(..)` fails only on an error stored by an earlier builder call,
which the model's builder state does not carry (the one panicking path,
`header`, is modelled separately), so the result here is always `ok`. -/
def RequestBuilder.into_request (rb : RequestBuilder) : Except Error Request :=
  let uri := match rb.query with
    | some query_string => rb.uri_base ++ "?" ++ query_string
    | none => rb.uri_base
  match rb.body with
  | some body_type =>
    .ok { method := rb.builder_method
          uri
          headers := rb.builder_headers ++ [("content-type", body_type.mime)]
          body := body_type.into_data }
  | none =>
    .ok { method := rb.builder_method
          uri
          headers := rb.builder_headers
          body := [] }

/-- Attach one header and then finalize: the composite the claim about header
validation speaks about. A panic in `header` aborts before finalization. -/
def buildWithHeader (rb : RequestBuilder) (key value : String) :
    BuildStep (Except Error Request) :=
  match rb.header key value with
  | .panicked msg => .panicked msg
  | .ok rb' => .ok rb'.into_request

/-- C5 (amended): a header value that is not valid header content makes the
builder panic inside `RequestBuilder::header` - at attach time, via `unwrap` -
so finalization is never reached and no error value (of any kind, let alone a
`MalformedRequest`, which does not exist in the `Error` enum) is returned; a
valid value is appended and finalization proceeds. -/
theorem C5_invalid_header_panics (rb : RequestBuilder) (key value : String) :
    (headerValueValid value = false →
      buildWithHeader rb key value = .panicked "called Result::unwrap() on an Err value") ∧
    (headerValueValid value = true →
      buildWithHeader rb key value =
        .ok (RequestBuilder.into_request
          { rb with builder_headers := rb.builder_headers ++ [(key, value)] })) := by
  constructor
  · intro h
    rw [buildWithHeader, RequestBuilder.header, h]
    rfl
  · intro h
    rw [buildWithHeader, RequestBuilder.header, h]
    rfl

/-- C5 witness: the embedded `Tcp` client's default builder panics when given
a header value containing a line feed. -/
theorem C5_invalid_header_witness :
    headerValueValid "a\nb" = false ∧
    buildWithHeader (RequestBuilder.new (.Tcp "tcp://127.0.0.1:2375") "/info") "x-key" "a\nb" =
      .panicked "called Result::unwrap() on an Err value" :=
  ⟨by decide,
   (C5_invalid_header_panics (RequestBuilder.new (.Tcp "tcp://127.0.0.1:2375") "/info")
     "x-key" "a\nb").1 (by decide)⟩

/-- Whether a finalize-then-inspect pipeline returned an error value (as
opposed to panicking or succeeding). -/
def returnsError : BuildStep (Except Error Request) → Bool
  | .ok (.error _) => true
  | _ => false

/-- C5 counterexample: with the invalid header value "a\nb" the pipeline does
not return any error to the caller - it panics - refuting the claim that
finalization fails with a `MalformedRequest` error (a variant the `Error` type
does not even contain). -/
theorem C5_counterexample :
    buildWithHeader (RequestBuilder.new (.Tcp "tcp://127.0.0.1:2375") "/info") "x-key" "a\nb" =
      .panicked "called Result::unwrap() on an Err value" ∧
    returnsError
      (buildWithHeader (RequestBuilder.new (.Tcp "tcp://127.0.0.1:2375") "/info") "x-key" "a\nb") =
      false := by
  refine ⟨rfl, rfl⟩

/-- C7 (confirmed): when a body is attached at finalize time it is exactly one
of the two tags Json or Tar; the finalized request carries a content-type
header equal to that tag's MIME type - "application/json" for Json,
"application/x-tar" for Tar - and the request body is the tag's payload, so
tag and content-type never disagree. -/
theorem C7_body_tag_determines_mime (rb : RequestBuilder) (bt : BodyType)
    (h : rb.body = some bt) :
    ∃ req, rb.into_request = .ok req ∧
      ("content-type", bt.mime) ∈ req.headers ∧
      req.body = bt.into_data ∧
      ((∃ d, bt = .Json d ∧ bt.mime = "application/json") ↔
        ¬ (∃ d, bt = .Tar d ∧ bt.mime = "application/x-tar")) := by
  refine ⟨{ method := rb.builder_method
            uri := match rb.query with
              | some query_string => rb.uri_base ++ "?" ++ query_string
              | none => rb.uri_base
            headers := rb.builder_headers ++ [("content-type", bt.mime)]
            body := bt.into_data }, ?_, ?_, rfl, ?_⟩
  · rw [RequestBuilder.into_request, h]
  · simp
  · cases bt <;> simp [BodyType.mime]

/-- C7 witness: a tar body of three bytes finalizes with the
"application/x-tar" content-type and that exact payload. -/
theorem C7_body_tag_witness :
    ∃ req,
      ((RequestBuilder.new (.Tcp "h") "/build").tar_body [1, 2, 3]).into_request = .ok req ∧
      ("content-type", BodyType.mime (.Tar [1, 2, 3])) ∈ req.headers ∧
      req.body = BodyType.into_data (.Tar [1, 2, 3]) ∧
      ((∃ d, BodyType.Tar [1, 2, 3] = .Json d ∧ BodyType.mime (.Tar [1, 2, 3]) = "application/json") ↔
        ¬ (∃ d, BodyType.Tar [1, 2, 3] = .Tar d ∧
              BodyType.mime (.Tar [1, 2, 3]) = "application/x-tar")) :=
  C7_body_tag_determines_mime ((RequestBuilder.new (.Tcp "h") "/build").tar_body [1, 2, 3])
    (.Tar [1, 2, 3]) rfl

/-- C10 (confirmed): a builder obtained from `HttpClient::request` - which
never calls `method` - finalizes to a request whose method is GET, for every
transport and endpoint; and an explicit `method` call overrides it. -/
theorem C10_default_method_is_get (c : HttpClient) (endpoint : String) :
    (∃ req, (c.request endpoint).into_request = .ok req ∧
      req.method = .GET ∧ req.uri = c.uri endpoint) ∧
    (∀ m, ∃ req, ((c.request endpoint).method m).into_request = .ok req ∧
      req.method = m) := by
  constructor
  · exact ⟨{ method := .GET, uri := c.uri endpoint, headers := [], body := [] },
      rfl, rfl, rfl⟩
  · intro m
    exact ⟨{ method := m, uri := c.uri endpoint, headers := [], body := [] }, rfl, rfl⟩

/-- C10 witness: over the Tcp transport at host "tcp://h" and endpoint
"/info", the default-method builder finalizes to a GET at "tcp://h/info". -/
theorem C10_default_method_witness :
    ∃ req, (HttpClient.request (.Tcp "tcp://h") "/info").into_request = .ok req ∧
      req.method = .GET ∧ req.uri = HttpClient.uri (.Tcp "tcp://h") "/info" :=
  (C10_default_method_is_get (.Tcp "tcp://h") "/info").1


/-! ## Response interpretation (src/http_client/request.rs lines 124-149,
233-252) -/

/-- `concat` from `src/http_client/request.rs` lines 233-242: drain a chunked
body front to back, accumulating the bytes; the first chunk error is returned
and the accumulated prefix is discarded. -/
def concat : List (Except Error (List Nat)) → Except Error (List Nat)
  | [] => .ok []
  | r :: rs =>
    match r with
    | .error e => .error e
    | .ok bytes =>
      match concat rs with
      | .error e => .error e
      | .ok v => .ok (bytes ++ v)

/-- `StatusCode::canonical_reason` of the http crate, modelled for the status
codes this development evaluates; codes the http crate leaves unregistered
(such as 599) have no canonical reason there and map to `none` here. -/
def canonical_reason (code : Nat) : Option String :=
  match code with
  | 101 => some "Switching Protocols"
  | 200 => some "OK"
  | 201 => some "Created"
  | 204 => some "No Content"
  | 400 => some "Bad Request"
  | 403 => some "Forbidden"
  | 404 => some "Not Found"
  | 409 => some "Conflict"
  | 418 => some "I'm a teapot"
  | 500 => some "Internal Server Error"
  | _ => none

/-- JSON values, for the model of `serde_json::from_slice`; string content is
kept as raw bytes. -/
inductive Json
  | str (content : List Nat)
  | num
  | bool (b : Bool)
  | null
  | arr (elems : List Json)
  | obj (fields : List (List Nat × Json))
deriving Repr

/-- JSON whitespace bytes. -/
def isWs (b : Nat) : Bool :=
  b == 32 || b == 9 || b == 10 || b == 13

def skipWs : List Nat → List Nat
  | [] => []
  | b :: bs => if isWs b then skipWs bs else b :: bs

/-- Bytes that may occur in a JSON number token (consumed loosely, since the
model never inspects numeric values). -/
def isNumByte (b : Nat) : Bool :=
  (48 ≤ b && b ≤ 57) || b == 43 || b == 45 || b == 46 || b == 101 || b == 69

def skipNum : List Nat → List Nat
  | [] => []
  | b :: bs => if isNumByte b then skipNum bs else b :: bs

/-- Parse the remainder of a JSON string after its opening quote: content
bytes up to the closing quote, handling the single-character escapes
(the \uXXXX escape is not modelled) and rejecting unescaped control bytes. -/
def parseStringRest : Nat → List Nat → Option (List Nat × List Nat)
  | 0, _ => none
  | _+1, [] => none
  | fuel+1, b :: bs =>
    if b == 34 then some ([], bs)
    else if b == 92 then
      match bs with
      | [] => none
      | e :: bs' =>
        let dec : Option Nat :=
          if e == 34 then some 34 else if e == 92 then some 92
          else if e == 47 then some 47 else if e == 98 then some 8
          else if e == 102 then some 12 else if e == 110 then some 10
          else if e == 114 then some 13 else if e == 116 then some 9
          else none
        match dec with
        | none => none
        | some v =>
          match parseStringRest fuel bs' with
          | some (content, rest) => some (v :: content, rest)
          | none => none
    else if b < 32 then none
    else
      match parseStringRest fuel bs with
      | some (content, rest) => some (b :: content, rest)
      | none => none

mutual

/-- Parse one JSON value (model of the serde_json grammar; numbers are
tokenized but not valued). The fuel bounds the recursion; every recursive
step consumes at least one input byte, so any fuel above the input length is
enough. -/
def parseValue : Nat → List Nat → Option (Json × List Nat)
  | 0, _ => none
  | fuel+1, input =>
    match skipWs input with
    | [] => none
    | b :: bs =>
      if b == 34 then
        match parseStringRest (fuel+1) bs with
        | some (content, rest) => some (.str content, rest)
        | none => none
      else if b == 123 then
        match parseObjRest fuel true bs with
        | some (fields, rest) => some (.obj fields, rest)
        | none => none
      else if b == 91 then
        match parseArrRest fuel true bs with
        | some (elems, rest) => some (.arr elems, rest)
        | none => none
      else if b == 116 then
        match bs with
        | 114 :: 117 :: 101 :: rest => some (.bool true, rest)
        | _ => none
      else if b == 102 then
        match bs with
        | 97 :: 108 :: 115 :: 101 :: rest => some (.bool false, rest)
        | _ => none
      else if b == 110 then
        match bs with
        | 117 :: 108 :: 108 :: rest => some (.null, rest)
        | _ => none
      else if b == 45 || (48 ≤ b && b ≤ 57) then
        some (.num, skipNum bs)
      else none

/-- Parse object fields after the opening brace; `allowClose` is true only
before the first field, so trailing commas are rejected. -/
def parseObjRest : Nat → Bool → List Nat → Option (List (List Nat × Json) × List Nat)
  | 0, _, _ => none
  | fuel+1, allowClose, input =>
    match skipWs input with
    | [] => none
    | b :: bs =>
      if b == 125 && allowClose then some ([], bs)
      else if b == 34 then
        match parseStringRest fuel bs with
        | none => none
        | some (key, rest1) =>
          match skipWs rest1 with
          | 58 :: rest2 =>
            match parseValue fuel rest2 with
            | none => none
            | some (v, rest3) =>
              match skipWs rest3 with
              | 44 :: rest4 =>
                match parseObjRest fuel false rest4 with
                | some (fields, rest5) => some ((key, v) :: fields, rest5)
                | none => none
              | 125 :: rest4 => some ([(key, v)], rest4)
              | _ => none
          | _ => none
      else none

/-- Parse array elements after the opening bracket. -/
def parseArrRest : Nat → Bool → List Nat → Option (List Json × List Nat)
  | 0, _, _ => none
  | fuel+1, allowClose, input =>
    match skipWs input with
    | [] => none
    | b :: bs =>
      if b == 93 && allowClose then some ([], bs)
      else
        match parseValue fuel (b :: bs) with
        | none => none
        | some (v, rest) =>
          match skipWs rest with
          | 44 :: rest2 =>
            match parseArrRest fuel false rest2 with
            | some (elems, rest3) => some (v :: elems, rest3)
            | none => none
          | 93 :: rest2 => some ([v], rest2)
          | _ => none

end

/-- The UTF-8 bytes of the field name "message". -/
def messageKey : List Nat :=
  [109, 101, 115, 115, 97, 103, 101]

/-- `get_error_message` from `src/http_client/request.rs` lines 244-252:
deserialize the drained body as the `ErrorResponse` DTO - a JSON object with a
string field `message`. `serde_json::from_slice` is external library code,
modelled here by the JSON parser above with serde's struct conventions:
the top level must be an object followed only by whitespace, unknown fields
are ignored, and a missing, duplicated or non-string `message` field is an
error. String content maps bytes to characters directly, which coincides with
UTF-8 on the ASCII range. -/
def get_error_message (bytes : List Nat) : Except Error String :=
  match parseValue (bytes.length + 1) bytes with
  | some (.obj fields, rest) =>
    if (skipWs rest).isEmpty then
      match fields.filter (fun f => f.1 == messageKey) with
      | [(_, .str content)] => .ok (String.mk (content.map Char.ofNat))
      | _ => .error .SerdeJsonError
    else .error .SerdeJsonError
  | _ => .error .SerdeJsonError

/-- The status codes of the success arm of `into_body`
(`src/http_client/request.rs` lines 128-133). -/
def successStatus (status : Nat) : Bool :=
  status == 200 || status == 201 || status == 101 || status == 204

/-- The fault message computed by the error arm of `into_body`: the parsed
`message` field, or on parse failure the status's canonical reason, or
"unknown error code" when the status has none. -/
def faultMessage (status : Nat) (bytes : List Nat) : String :=
  match get_error_message bytes with
  | .ok message => message
  | .error _ => (canonical_reason status).getD "unknown error code"

/-- `into_body` from `src/http_client/request.rs` lines 124-149: a response
with status in the success set passes its body through untouched; any other
status drains the body completely with `concat` (propagating a chunk error)
and produces `Fault` with the status code and extracted message. The body is
its chunk sequence; the response is (status, body). -/
def into_body (status : Nat) (body : List (Except Error (List Nat))) :
    Except Error (List (Except Error (List Nat))) :=
  if successStatus status then
    .ok body
  else
    match concat body with
    | .error e => .error e
    | .ok bytes => .error (.Fault status (faultMessage status bytes))


/-- C8 (confirmed): materializing a chunked body concatenates all chunks in
delivery order into one buffer; if any chunk errors, the first error is
returned and the previously accumulated bytes are discarded (no partial
buffer is ever returned). -/
theorem C8_concat_first_error_discards_partial :
    (∀ bss : List (List Nat), concat (bss.map .ok) = .ok bss.flatten) ∧
    (∀ (pre : List (List Nat)) (e : Error) (post : List (Except Error (List Nat))),
      concat (pre.map .ok ++ .error e :: post) = .error e) := by
  constructor
  · intro bss
    induction bss with
    | nil => rfl
    | cons bhead btail ih =>
      rw [List.map_cons, List.flatten_cons, concat]
      show (match concat (btail.map .ok) with
        | .error e => (.error e : Except Error (List Nat))
        | .ok v => .ok (bhead ++ v)) = .ok (bhead ++ btail.flatten)
      rw [ih]
  · intro pre e post
    induction pre with
    | nil => rfl
    | cons p ptail ih =>
      rw [List.map_cons, List.cons_append, concat]
      show (match concat (ptail.map .ok ++ .error e :: post) with
        | .error e' => (.error e' : Except Error (List Nat))
        | .ok v => .ok (p ++ v)) = .error e
      rw [ih]

/-- The UTF-8 bytes of the scenario fault body
(a JSON object whose `message` field is "no such container: abc"). -/
def fault404Body : List Nat :=
  [123, 34, 109, 101, 115, 115, 97, 103, 101, 34, 58, 34,
   110, 111, 32, 115, 117, 99, 104, 32, 99, 111, 110, 116, 97, 105, 110, 101,
   114, 58, 32, 97, 98, 99, 34, 125]

/-- The UTF-8 bytes of "not json", an unparseable fault body. -/
def notJsonBody : List Nat :=
  [110, 111, 116, 32, 106, 115, 111, 110]

/-- C4 (confirmed): a response with status in the success set
{200, 201, 204, 101} passes its body to the caller unchanged; any other
status first drains the body fully (a chunk error during the drain is
surfaced instead), then yields `Fault` with that status code and the message
extracted from the drained bytes - the JSON `message` field when the body
parses, else the canonical reason phrase; in particular 404 with body
containing message "no such container: abc" yields that message, and 500 with
an unparseable body yields "Internal Server Error". -/
theorem C4_fault_drains_body_and_extracts_message :
    (∀ (status : Nat) (body : List (Except Error (List Nat))),
      successStatus status = true → into_body status body = .ok body) ∧
    (∀ (status : Nat) (body : List (Except Error (List Nat))) (bytes : List Nat),
      successStatus status = false → concat body = .ok bytes →
      into_body status body = .error (.Fault status (faultMessage status bytes))) ∧
    (∀ (status : Nat) (body : List (Except Error (List Nat))) (e : Error),
      successStatus status = false → concat body = .error e →
      into_body status body = .error e) ∧
    into_body 404 [.ok fault404Body] = .error (.Fault 404 "no such container: abc") ∧
    into_body 500 [.ok notJsonBody] = .error (.Fault 500 "Internal Server Error") := by
  refine ⟨?_, ?_, ?_, rfl, rfl⟩
  · intro status body h
    simp [into_body, h]
  · intro status body bytes h hc
    simp [into_body, h, hc]
  · intro status body e h hc
    simp [into_body, h, hc]

/-- C4 witness: a 200 passes the body through; a status with no registered
reason phrase (599) and an empty body falls back to "unknown error code"; a
registered non-JSON fault (418) falls back to its canonical reason; a chunk
error while draining a fault body is surfaced as that error. -/
theorem C4_fault_classification_witness :
    into_body 200 [.ok [1]] = .ok [.ok [1]] ∧
    into_body 599 [] = .error (.Fault 599 "unknown error code") ∧
    into_body 418 [] = .error (.Fault 418 "I'm a teapot") ∧
    into_body 404 [.error .Decode] = .error .Decode :=
  ⟨C4_fault_drains_body_and_extracts_message.1 200 [.ok [1]] rfl,
   C4_fault_drains_body_and_extracts_message.2.1 599 [] [] rfl rfl,
   C4_fault_drains_body_and_extracts_message.2.1 418 [] [] rfl rfl,
   C4_fault_drains_body_and_extracts_message.2.2.1 404 [.error .Decode] .Decode rfl rfl⟩

end Shiplift
